import Mathlib

/-!
Verification of the IPTV playlist aggregator (`main.py`).

The development shallowly embeds the program's pure core: channel-name
cleaning, the two source-format line parsers, format detection, template
parsing, source merging, template matching, URL ranking/filtering, and the
serialization of the two output playlist files.  Python strings are
modelled as Lean `String`s, Python `OrderedDict`s as ordered association
lists, and the shared mutable `written_urls` set as an explicitly threaded
membership list.  All definitions are executable.
-/

/-! ### Python-style string primitives (over `List Char`) -/

/-- ASCII whitespace, as recognized by Python's `str.strip` and `\s`
for the inputs at hand. -/
def pyIsSpace (c : Char) : Bool :=
  c = ' ' || c = '\t' || c = '\n' || c = '\r' || c = '\u000B' || c = '\u000C'

/-- Python `str.strip()`: drop whitespace from both ends. -/
def pyStrip (s : String) : String :=
  ⟨((s.data.dropWhile pyIsSpace).reverse.dropWhile pyIsSpace).reverse⟩

/-- Python `s.startswith(pre)`. -/
def pyStartsWith (s pre : String) : Bool :=
  pre.data.isPrefixOf s.data

/-- Find the first occurrence of `pat` inside a character list, returning
the characters before the occurrence and the characters after it. -/
def subFind (pat : List Char) : List Char → Option (List Char × List Char)
  | [] => if pat.isPrefixOf ([] : List Char) then some ([], []) else none
  | c :: t =>
    if pat.isPrefixOf (c :: t) then some ([], (c :: t).drop pat.length)
    else (subFind pat t).map (fun p => (c :: p.1, p.2))

/-- Python `sub in s` (substring containment). -/
def pyIn (sub s : String) : Bool :=
  (subFind sub.data s.data).isSome

/-- Split at the first comma: `some (before, after)` when the string
contains a comma, `none` otherwise.  This is what the anchored lazy
regex `^(.*?),(.*?)$` of `parse_txt_lines` computes on a newline-free
line, and what `'$'`-free splitting reuses below. -/
def splitFirstComma (s : String) : Option (String × String) :=
  (subFind [','] s.data).map (fun p => (⟨p.1⟩, ⟨p.2⟩))

/-- Python `line.split(",")[0]`: the text before the first comma, or the
whole string when there is none. -/
def beforeComma (s : String) : String :=
  match splitFirstComma s with
  | some p => p.1
  | none => s

/-- Split a character list on every occurrence of the character `c`,
keeping empty segments (Python `str.split` with a one-character
separator). -/
def splitOnCharList (c : Char) : List Char → List (List Char)
  | [] => [[]]
  | a :: t =>
    if a = c then [] :: splitOnCharList c t
    else
      match splitOnCharList c t with
      | [] => [[a]]
      | s :: rest => (a :: s) :: rest

/-- Python `s.split(c)` for a one-character separator. -/
def pySplitChar (c : Char) (s : String) : List String :=
  (splitOnCharList c s.data).map (fun l => ⟨l⟩)

/-- Python `sep.join(items)`. -/
def joinWith (sep : String) : List String → String
  | [] => ""
  | [s] => s
  | s :: rest => s ++ sep ++ joinWith sep rest

/-- Python `u in written` for a collection of strings (the mutable
`written_urls` set is modelled as the list of strings added so far;
only membership is ever observed). -/
def pyMem (u : String) : List String → Bool
  | [] => false
  | v :: rest => u == v || pyMem u rest

/-! ### `clean_channel_name` -/

/-- The value of a run of decimal digits (`int(...)` on a digit string). -/
def digitsVal (ds : List Char) : Nat :=
  ds.foldl (fun a c => 10 * a + (c.toNat - 48)) 0

/-- Re-render an accumulated digit run as its integer value (empty run:
nothing pending). -/
def flushDigits (ds : List Char) : List Char :=
  match ds with
  | [] => []
  | _ => (Nat.repr (digitsVal ds)).data

/-- Worker for `re.sub(r'(\D*)(\d+)', ...)`: non-digit characters pass
through, every maximal digit run is replaced by the decimal rendering of
its integer value. -/
def pyDigitSubGo (ds : List Char) : List Char → List Char
  | [] => flushDigits ds
  | c :: cs =>
    if c.isDigit then pyDigitSubGo (ds ++ [c]) cs
    else flushDigits ds ++ c :: pyDigitSubGo [] cs

def pyDigitSub (s : List Char) : List Char := pyDigitSubGo [] s

/-- `clean_channel_name`: strip the characters `$ 「 」 -`, strip all
whitespace, re-render each digit run as its integer value (dropping
leading zeros), and uppercase (ASCII case mapping). -/
def clean_channel_name (s : String) : String :=
  let s1 := s.data.filter (fun c => !(c = '$' || c = '「' || c = '」' || c = '-'))
  let s2 := s1.filter (fun c => !(pyIsSpace c))
  ⟨(pyDigitSub s2).map Char.toUpper⟩

/-- The guarded call-site pattern shared verbatim by `parse_m3u_lines`
and `parse_txt_lines`:
`if channel_name and channel_name.startswith("CCTV"): channel_name = clean_channel_name(channel_name)`. -/
def applyCCTVClean (name : String) : String :=
  if name ≠ "" ∧ pyStartsWith name "CCTV" = true then clean_channel_name name else name

/-! ### Ordered dictionaries (`collections.OrderedDict`) -/

/-- An `OrderedDict` with string keys: an association list in insertion
order.  All operations below preserve the position of existing keys, as
`OrderedDict` does. -/
abbrev ODict (α : Type) := List (String × α)

/-- Python `k in d`. -/
def odContains (d : ODict α) (k : String) : Bool :=
  d.any (fun p => p.1 == k)

/-- Python `d[k]` (as an `Option`, `none` when the key is absent). -/
def odLookup (d : ODict α) (k : String) : Option α :=
  match d with
  | [] => none
  | p :: rest => if p.1 == k then some p.2 else odLookup rest k

/-- Python `d[k] = v`: replace in place when the key exists (keeping its
position), append the new key otherwise. -/
def odSet (d : ODict α) (k : String) (v : α) : ODict α :=
  if odContains d k then d.map (fun p => if p.1 == k then (p.1, v) else p)
  else d ++ [(k, v)]

/-- Python `d[k].append(x)` on a present key. -/
def odAppend (d : ODict (List β)) (k : String) (x : β) : ODict (List β) :=
  d.map (fun p => if p.1 == k then (p.1, p.2 ++ [x]) else p)

/-- Python `d[k].extend(xs)` on a present key. -/
def odAppendList (d : ODict (List β)) (k : String) (xs : List β) : ODict (List β) :=
  d.map (fun p => if p.1 == k then (p.1, p.2 ++ xs) else p)

/-- Python `d.setdefault(k, []).append(v)`. -/
def odSetdefaultAppend (d : ODict (List String)) (k : String) (v : String) : ODict (List String) :=
  if odContains d k then odAppend d k v else d ++ [(k, [v])]

/-! ### `parse_template` -/

/-- One iteration of the `parse_template` loop.  The state is the
`OrderedDict` built so far together with `current_category`.  Blank lines
and lines starting with `#` are skipped outright; a surviving line
containing `#genre#` starts (or resets) a category; any other surviving
line is recorded as a channel name of the current category. -/
def parse_template_step (st : ODict (List String) × Option String) (rawLine : String) :
    ODict (List String) × Option String :=
  let line := pyStrip rawLine
  if line = "" then st
  else if pyStartsWith line "#" then st
  else if pyIn "#genre#" line then
    (odSet st.1 (pyStrip (beforeComma line)) [], some (pyStrip (beforeComma line)))
  else
    match st.2 with
    | some c => if c = "" then st else (odAppend st.1 c (pyStrip (beforeComma line)), some c)
    | none => st

/-- `parse_template`, applied to the lines of the template file. -/
def parse_template (lines : List String) : ODict (List String) :=
  (lines.foldl parse_template_step ([], none)).1

/-! ### `parse_m3u_lines` -/

/-- `re.search(r'group-title="(.*?)",(.*)', line)`: locate the first
occurrence of `group-title="`, then the first following `",`; group 1 is
the text between them, group 2 everything after the `",`.  `none` when
the pattern does not occur. -/
def searchGroupTitle (line : String) : Option (String × String) :=
  match subFind "group-title=\"".data line.data with
  | none => none
  | some q =>
    match subFind "\",".data q.2 with
    | none => none
    | some r => some (⟨r.1⟩, ⟨r.2⟩)

/-- The loop state of `parse_m3u_lines`: the channels dictionary,
`current_category` (`none` before the first matching `#EXTINF` line) and
the most recently captured `channel_name`. -/
structure M3uSt where
  channels : ODict (List (String × String))
  cat : Option String
  name : String
deriving DecidableEq

/-- One iteration of the `parse_m3u_lines` loop. -/
def parse_m3u_step (st : M3uSt) (rawLine : String) : M3uSt :=
  let line := pyStrip rawLine
  if pyStartsWith line "#EXTINF" then
    match searchGroupTitle line with
    | some g =>
      { channels :=
          if odContains st.channels (pyStrip g.1) then st.channels
          else st.channels ++ [(pyStrip g.1, [])],
        cat := some (pyStrip g.1),
        name := applyCCTVClean (pyStrip g.2) }
    | none => st
  else if line ≠ "" ∧ ¬ (pyStartsWith line "#" = true) then
    match st.cat with
    | some c =>
      if c ≠ "" ∧ st.name ≠ "" then
        { st with channels := odAppend st.channels c (st.name, line) }
      else st
    | none => st
  else st

def parse_m3u_lines (lines : List String) : ODict (List (String × String)) :=
  (lines.foldl parse_m3u_step ⟨[], none, ""⟩).channels

/-! ### `parse_txt_lines` -/

/-- One iteration of the `parse_txt_lines` loop.  The state is the
channels dictionary with `current_category`.  A line containing `#genre#`
starts (or resets) a category; with a truthy current category, a line
with a comma contributes one `(name, url)` pair per `#`-separated segment
of the text after the first comma, and a non-empty line without a comma
contributes `(line, "")`. -/
def parse_txt_step (st : ODict (List (String × String)) × Option String) (rawLine : String) :
    ODict (List (String × String)) × Option String :=
  let line := pyStrip rawLine
  if pyIn "#genre#" line then
    (odSet st.1 (pyStrip (beforeComma line)) [], some (pyStrip (beforeComma line)))
  else
    match st.2 with
    | some c =>
      if c = "" then st
      else
        match splitFirstComma line with
        | some g =>
          (odAppendList st.1 c
            (((pySplitChar '#' (pyStrip g.2)).map pyStrip).map
              (fun u => (applyCCTVClean (pyStrip g.1), u))), some c)
        | none => if line = "" then st else (odAppend st.1 c (line, ""), some c)
    | none => st

def parse_txt_lines (lines : List String) : ODict (List (String × String)) :=
  (lines.foldl parse_txt_step ([], none)).1

/-! ### `fetch_channels` (format detection), `merge_channels`, `match_channels` -/

/-- The detection `any(line.startswith("#EXTINF") for line in lines[:15])`
performed by `fetch_channels` on the fetched text split on newlines. -/
def textIsM3u (text : String) : Bool :=
  (((pySplitChar '\n' text).take 15).any (fun l => pyStartsWith l "#EXTINF"))

/-- `fetch_channels`, restricted to its pure part: the body run on a
successfully fetched response text. -/
def fetch_channels_text (text : String) : ODict (List (String × String)) :=
  let lines := pySplitChar '\n' text
  if textIsM3u text then parse_m3u_lines lines else parse_txt_lines lines

/-- `merge_channels`: extend existing categories in place, append unseen
categories at the end. -/
def merge_channels (target source : ODict (List (String × String))) :
    ODict (List (String × String)) :=
  source.foldl
    (fun t p => if odContains t p.1 then odAppendList t p.1 p.2 else t ++ [(p.1, p.2)])
    target

/-- `match_channels`: for each template category, scan the whole merged
repository and collect, per template channel name, every URL whose entry
name matches exactly. -/
def match_channels (tpl : ODict (List String)) (allChans : ODict (List (String × String))) :
    ODict (ODict (List String)) :=
  tpl.foldl
    (fun acc cp =>
      let inner := cp.2.foldl
        (fun inner name =>
          allChans.foldl
            (fun inner oc =>
              oc.2.foldl
                (fun inner p =>
                  if name == p.1 then odSetdefaultAppend inner name p.2 else inner)
                inner)
            inner)
        ([] : ODict (List String))
      odSet acc cp.1 inner)
    []

/-- `filter_source_urls`: parse the template, fetch/parse/merge all
sources in order, and match against the template.  The sources are given
as the list of (successfully) fetched response texts. -/
def filter_source_urls (templateText : String) (sourceTexts : List String) :
    ODict (ODict (List String)) × ODict (List String) :=
  let tpl := parse_template (pySplitChar '\n' templateText)
  let allChans := sourceTexts.foldl (fun acc txt => merge_channels acc (fetch_channels_text txt)) []
  (match_channels tpl allChans, tpl)

/-! ### Configuration, `is_ipv6`, `sort_and_filter_urls`, `add_url_suffix` -/

/-- The static configuration consumed by the pipeline (`config.py`). -/
structure Config where
  epg_urls : List String
  url_blacklist : List String
  ip_version_priority : String
deriving DecidableEq

/-- `is_ipv6`: the URL matches `^http:\/\/\[[0-9a-fA-F:]+\]`. -/
def is_ipv6 (url : String) : Bool :=
  let cs := url.data
  if "http://[".data.isPrefixOf cs then
    let rest := cs.drop 8
    let run := rest.takeWhile (fun c => c.isDigit || ('a' ≤ c ∧ c ≤ 'f') || ('A' ≤ c ∧ c ≤ 'F') || c = ':')
    !run.isEmpty && (rest.drop run.length).head? = some ']'
  else false

/-- The sort key `lambda u: not is_ipv6(u) if config.ip_version_priority == "ipv6" else is_ipv6(u)`. -/
def sort_urls_key (cfg : Config) (u : String) : Bool :=
  if cfg.ip_version_priority = "ipv6" then !(is_ipv6 u) else is_ipv6 u

/-- Python's `sorted` is stable, so sorting by a Boolean key is exactly:
all `false`-key elements in input order, then all `true`-key elements in
input order. -/
def sorted_urls (cfg : Config) (urls : List String) : List String :=
  urls.filter (fun u => !(sort_urls_key cfg u)) ++ urls.filter (sort_urls_key cfg)

/-- The filter condition of `sort_and_filter_urls`: the URL is non-empty,
not already written, and contains no blacklist substring. -/
def url_ok (cfg : Config) (written : List String) (u : String) : Bool :=
  u != "" && !(pyMem u written) && !(cfg.url_blacklist.any (fun b => pyIn b u))

/-- The `filtered_urls` list comprehension of `sort_and_filter_urls`:
sort, then keep the URLs passing `url_ok` against the written set as it
was on entry. -/
def filtered_urls (cfg : Config) (urls written : List String) : List String :=
  (sorted_urls cfg urls).filter (url_ok cfg written)

/-- `sort_and_filter_urls`: returns the filtered list together with the
updated written set (`written_urls.update(filtered_urls)`). -/
def sort_and_filter_urls (cfg : Config) (urls written : List String) :
    List String × List String :=
  (filtered_urls cfg urls written, written ++ filtered_urls cfg urls written)

/-- `url.split('$', 1)[0] if '$' in url else url`. -/
def dollarBase (url : String) : String :=
  if pyIn "$" url then
    match subFind ['$'] url.data with
    | some p => ⟨p.1⟩
    | none => url
  else url

/-- `add_url_suffix`: strip any existing `$`-suffix, then append the rank
suffix chosen by address family, `index` and `total_urls`. -/
def add_url_suffix (url : String) (index total_urls : Nat) : String :=
  let suffix :=
    if is_ipv6 url then
      if total_urls = 1 then "$LR•IPV6" else "$LR•IPV6『线路" ++ Nat.repr index ++ "』"
    else
      if total_urls = 1 then "$LR•IPV4" else "$LR•IPV4『线路" ++ Nat.repr index ++ "』"
  dollarBase url ++ suffix

/-! ### The writer (`updateChannelUrlsM3U`) -/

/-- The per-category inner loop of `updateChannelUrlsM3U`: iterate the
template's channel names; for each name present in the category's matched
dictionary, run `sort_and_filter_urls` with the threaded written set.
Returns the `(channel_name, sorted_urls)` steps in order together with
the final written set. -/
def category_steps (cfg : Config) (d : ODict (List String)) :
    List String → List String → List (String × List String) × List String
  | [], w => ([], w)
  | name :: rest, w =>
    match odLookup d name with
    | some urls =>
      ((name, (sort_and_filter_urls cfg urls w).1) ::
          (category_steps cfg d rest (sort_and_filter_urls cfg urls w).2).1,
        (category_steps cfg d rest (sort_and_filter_urls cfg urls w).2).2)
    | none => category_steps cfg d rest w

/-- The outer loop of `updateChannelUrlsM3U`: iterate the template
categories in order; every category yields a txt header, and categories
present in the matched channels also run the inner loop.  The written set
threads across the whole traversal. -/
def writer_cats (cfg : Config) (channels : ODict (ODict (List String))) :
    ODict (List String) → List String →
      List (String × List (String × List String)) × List String
  | [], w => ([], w)
  | cp :: rest, w =>
    match odLookup channels cp.1 with
    | some d =>
      ((cp.1, (category_steps cfg d cp.2 w).1) ::
          (writer_cats cfg channels rest (category_steps cfg d cp.2 w).2).1,
        (writer_cats cfg channels rest (category_steps cfg d cp.2 w).2).2)
    | none =>
      ((cp.1, []) :: (writer_cats cfg channels rest w).1,
        (writer_cats cfg channels rest w).2)

/-- The per-channel lists of (pre-suffix) URLs the writer emits, in
traversal order. -/
def writer_step_lists (cfg : Config) (channels : ODict (ODict (List String)))
    (tpl : ODict (List String)) : List (List String) :=
  ((writer_cats cfg channels tpl []).1).flatMap (fun c => c.2.map (fun s => s.2))

/-- All (pre-suffix) URLs the writer emits over a whole run, in order. -/
def writer_all_urls (cfg : Config) (channels : ODict (ODict (List String)))
    (tpl : ODict (List String)) : List String :=
  (writer_step_lists cfg channels tpl).flatten

/-- A line of the delimited output file `live.txt` (excluding the final
blank line): a `{category},#genre#` header or a `{name},{new_url}` entry. -/
inductive TxtLine
  | header (cat : String)
  | entry (name url : String)
deriving DecidableEq

/-- The category of a header line. -/
def headerCat : TxtLine → Option String
  | .header c => some c
  | .entry _ _ => none

/-- The txt entries of one channel: one `{name},{new_url}` line per
surviving URL, numbered from 1, with the suffix computed against the
channel's total. -/
def step_txt_entries (name : String) (sorted : List String) : List TxtLine :=
  sorted.enum.map (fun p => TxtLine.entry name (add_url_suffix p.2 (p.1 + 1) sorted.length))

/-- The lines of `live.txt` (excluding the final blank line), in the
order the writer emits them. -/
def txt_lines (cfg : Config) (channels : ODict (ODict (List String)))
    (tpl : ODict (List String)) : List TxtLine :=
  ((writer_cats cfg channels tpl []).1).flatMap
    (fun c => TxtLine.header c.1 :: c.2.flatMap (fun s => step_txt_entries s.1 s.2))

def renderTxtLine : TxtLine → String
  | .header c => c ++ ",#genre#"
  | .entry n u => n ++ "," ++ u

/-- The full byte content of `live.txt`: each line followed by a newline,
plus the final `f_txt.write("\n")`. -/
def txt_content (cfg : Config) (channels : ODict (ODict (List String)))
    (tpl : ODict (List String)) : String :=
  ((txt_lines cfg channels tpl).map (fun l => renderTxtLine l ++ "\n")).foldl (· ++ ·) "" ++ "\n"

/-- The two `f_m3u.write` lines of one playlist entry. -/
def m3u_entry_lines (cat name : String) (index : Nat) (newUrl : String) : List String :=
  ["#EXTINF:-1 tvg-id=\"" ++ Nat.repr index ++ "\" tvg-name=\"" ++ name ++
      "\" tvg-logo=\"https://gcore.jsdelivr.net/gh/yuanzl77/TVlogo@master/png/" ++ name ++
      ".png\" group-title=\"" ++ cat ++ "\"," ++ name,
    newUrl]

/-- The `#EXTM3U` header line with the comma-joined quoted EPG URLs. -/
def m3u_header (cfg : Config) : String :=
  "#EXTM3U x-tvg-url=" ++ joinWith "," (cfg.epg_urls.map (fun e => "\"" ++ e ++ "\""))

/-- The full byte content of `live.m3u`. -/
def m3u_content (cfg : Config) (channels : ODict (ODict (List String)))
    (tpl : ODict (List String)) : String :=
  ((m3u_header cfg ::
      ((writer_cats cfg channels tpl []).1).flatMap
        (fun c => c.2.flatMap (fun s =>
          s.2.enum.flatMap (fun p =>
            m3u_entry_lines c.1 s.1 (p.1 + 1) (add_url_suffix p.2 (p.1 + 1) s.2.length))))).map
    (fun l => l ++ "\n")).foldl (· ++ ·) ""

/-- `updateChannelUrlsM3U`, as the pair of produced file contents.  The
wall-clock date (`datetime.now().strftime("%Y-%m-%d")`) is taken as an
explicit argument; the code computes it but — the announcement block
being commented out — never uses it in either file body. -/
def updateChannelUrlsM3U (now : String) (cfg : Config)
    (channels : ODict (ODict (List String))) (tpl : ODict (List String)) : String × String :=
  let _current_date := now
  (m3u_content cfg channels tpl, txt_content cfg channels tpl)

/-- The whole pipeline of `__main__`: parse the template, fetch and merge
the sources, match, and serialize both playlist files. -/
def pipeline (now : String) (cfg : Config) (templateText : String) (sourceTexts : List String) :
    String × String :=
  updateChannelUrlsM3U now cfg (filter_source_urls templateText sourceTexts).1
    (filter_source_urls templateText sourceTexts).2

/-! ### Basic lemmas -/

theorem pyMem_iff {u : String} {w : List String} : pyMem u w = true ↔ u ∈ w := by
  induction w with
  | nil => simp [pyMem]
  | cons v rest ih => simp [pyMem, ih]

/-- Unpacking the `url_ok` filter of `filtered_urls`: every survivor is
non-empty, blacklist-free, and was not in the written set on entry. -/
theorem mem_filtered_urls {cfg : Config} {urls w : List String} {u : String}
    (h : u ∈ filtered_urls cfg urls w) :
    (u ≠ "" ∧ ∀ b ∈ cfg.url_blacklist, pyIn b u = false) ∧ u ∉ w := by
  have h2 := (List.mem_filter.mp h).2
  simp only [url_ok, Bool.and_eq_true, bne_iff_ne, ne_eq, Bool.not_eq_true',
    List.any_eq_false] at h2
  refine ⟨⟨h2.1.1, fun b hb => Bool.eq_false_iff.mpr (h2.2 b hb)⟩, fun hm => ?_⟩
  have h3 := h2.1.2
  rw [pyMem_iff.mpr hm] at h3
  simp at h3

theorem pyStartsWith_hash_of_extinf {s : String} (h : pyStartsWith s "#EXTINF" = true) :
    pyStartsWith s "#" = true := by
  unfold pyStartsWith at h ⊢
  have hd : "#EXTINF".data = '#' :: "EXTINF".data := rfl
  have hd2 : "#".data = ['#'] := rfl
  rw [hd] at h
  rw [hd2]
  cases hsd : s.data with
  | nil => rw [hsd] at h; simp [List.isPrefixOf] at h
  | cons a t =>
    rw [hsd] at h
    simp only [List.isPrefixOf, Bool.and_eq_true] at h ⊢
    exact ⟨h.1, by simp [List.isPrefixOf]⟩

theorem subFind_dollar_isSome : ∀ l : List Char, '$' ∈ l → (subFind ['$'] l).isSome = true := by
  intro l
  induction l with
  | nil => simp
  | cons a t ih =>
    intro h
    by_cases hp : (['$'].isPrefixOf (a :: t)) = true
    · simp [subFind, hp]
    · have ha : a ≠ '$' := by
        intro e
        apply hp
        simp [List.isPrefixOf, e]
      rcases List.mem_cons.mp h with he | hm
      · exact absurd he.symm ha
      · have h2 := ih hm
        simp only [subFind]
        rw [if_neg hp]
        cases hsf : subFind ['$'] t with
        | none => rw [hsf] at h2; simp at h2
        | some p => simp

theorem subFind_dollar_append : ∀ l rest : List Char, '$' ∉ l →
    subFind ['$'] (l ++ '$' :: rest) = some (l, rest) := by
  intro l rest
  induction l with
  | nil => intro _; simp [subFind, List.isPrefixOf]
  | cons a t ih =>
    intro h
    have ha : a ≠ '$' := fun e => h (by simp [e])
    have h2 : '$' ∉ t := fun m => h (List.mem_cons_of_mem _ m)
    simp only [List.cons_append, subFind]
    rw [if_neg ?_, List.append_eq, ih h2]
    · rfl
    · simp [List.isPrefixOf]
      exact fun e => absurd e.symm ha

/-- With no `$` in `base`, the pre-`$` part of `base ++ "$" ++ junk` is
exactly `base`: `add_url_suffix` replaces everything from the first `$`
on. -/
theorem dollarBase_append {base rest : String} (h : pyIn "$" base = false) :
    dollarBase (base ++ "$" ++ rest) = base := by
  have hd : ("$" : String).data = ['$'] := rfl
  have hnm : '$' ∉ base.data := by
    intro hm
    have := subFind_dollar_isSome base.data hm
    unfold pyIn at h
    rw [hd] at h
    rw [h] at this
    simp at this
  have hdata : (base ++ "$" ++ rest).data = base.data ++ '$' :: rest.data := by
    rw [String.data_append, String.data_append, hd, List.append_assoc]
    rfl
  have hin : pyIn "$" (base ++ "$" ++ rest) = true := by
    unfold pyIn
    rw [hd, hdata, subFind_dollar_append base.data rest.data hnm]
    rfl
  unfold dollarBase
  rw [if_pos hin, hdata, subFind_dollar_append base.data rest.data hnm]

/-! ### Writer invariants -/

/-- Disjointness of two channel steps' emitted URL lists. -/
def stepDisj (s t : List String) : Prop := ∀ u ∈ s, u ∉ t

/-- Soundness of the inner writer loop: the written set on exit is the
written set on entry extended by everything emitted; every emitted URL is
non-empty, blacklist-free, and new relative to the entry set; and the
per-channel emitted lists are pairwise disjoint. -/
theorem category_steps_sound (cfg : Config) (d : ODict (List String)) :
    ∀ (names : List String) (w : List String),
      (category_steps cfg d names w).2
          = w ++ ((category_steps cfg d names w).1.map (fun s => s.2)).flatten ∧
        (∀ u ∈ ((category_steps cfg d names w).1.map (fun s => s.2)).flatten,
          (u ≠ "" ∧ ∀ b ∈ cfg.url_blacklist, pyIn b u = false) ∧ u ∉ w) ∧
        List.Pairwise stepDisj ((category_steps cfg d names w).1.map (fun s => s.2)) := by
  intro names
  induction names with
  | nil => intro w; simp [category_steps]
  | cons name rest ih =>
    intro w
    cases hl : odLookup d name with
    | none => simpa [category_steps, hl] using ih w
    | some urls =>
      obtain ⟨ih1, ih2, ih3⟩ := ih ((sort_and_filter_urls cfg urls w).2)
      simp only [category_steps, hl, List.map_cons, List.flatten_cons]
      refine ⟨?_, ?_, ?_⟩
      · rw [ih1]
        show (sort_and_filter_urls cfg urls w).2 ++ _ = _
        rw [show (sort_and_filter_urls cfg urls w).2
            = w ++ (sort_and_filter_urls cfg urls w).1 from rfl]
        rw [List.append_assoc]
      · intro u hu
        rcases List.mem_append.mp hu with h | h
        · exact mem_filtered_urls h
        · obtain ⟨hg, hw⟩ := ih2 u h
          refine ⟨hg, fun hmem => hw ?_⟩
          show u ∈ w ++ (sort_and_filter_urls cfg urls w).1
          exact List.mem_append_left _ hmem
      · rw [List.pairwise_cons]
        refine ⟨?_, ih3⟩
        intro t ht u hu hut
        have hj : u ∈ ((category_steps cfg d rest
            ((sort_and_filter_urls cfg urls w).2)).1.map (fun s => s.2)).flatten :=
          List.mem_flatten.mpr ⟨t, ht, hut⟩
        apply (ih2 u hj).2
        show u ∈ w ++ (sort_and_filter_urls cfg urls w).1
        exact List.mem_append_right _ hu

/-- Soundness of the outer writer loop, lifted from
`category_steps_sound`. -/
theorem writer_cats_sound (cfg : Config) (channels : ODict (ODict (List String))) :
    ∀ (tpl : ODict (List String)) (w : List String),
      (writer_cats cfg channels tpl w).2
          = w ++ (((writer_cats cfg channels tpl w).1.flatMap
              (fun c => c.2.map (fun s => s.2))).flatten) ∧
        (∀ u ∈ ((writer_cats cfg channels tpl w).1.flatMap
              (fun c => c.2.map (fun s => s.2))).flatten,
          (u ≠ "" ∧ ∀ b ∈ cfg.url_blacklist, pyIn b u = false) ∧ u ∉ w) ∧
        List.Pairwise stepDisj ((writer_cats cfg channels tpl w).1.flatMap
          (fun c => c.2.map (fun s => s.2))) := by
  intro tpl
  induction tpl with
  | nil => intro w; simp [writer_cats]
  | cons cp rest ih =>
    intro w
    cases hl : odLookup channels cp.1 with
    | none =>
      obtain ⟨ih1, ih2, ih3⟩ := ih w
      simp only [writer_cats, hl, List.flatMap_cons, List.map_nil, List.nil_append]
      exact ⟨ih1, ih2, ih3⟩
    | some d =>
      obtain ⟨cs1, cs2, cs3⟩ := category_steps_sound cfg d cp.2 w
      obtain ⟨ih1, ih2, ih3⟩ := ih ((category_steps cfg d cp.2 w).2)
      simp only [writer_cats, hl, List.flatMap_cons, List.flatten_append]
      refine ⟨?_, ?_, ?_⟩
      · rw [ih1, cs1, List.append_assoc]
      · intro u hu
        rcases List.mem_append.mp hu with h | h
        · exact cs2 u h
        · obtain ⟨hg, hw⟩ := ih2 u h
          refine ⟨hg, fun hm => hw ?_⟩
          rw [cs1]
          exact List.mem_append_left _ hm
      · rw [List.pairwise_append]
        refine ⟨cs3, ih3, ?_⟩
        intro a ha b hb u hu hub
        have huj := List.mem_flatten.mpr ⟨a, ha, hu⟩
        have hub' := List.mem_flatten.mpr ⟨b, hb, hub⟩
        apply (ih2 u hub').2
        rw [cs1]
        exact List.mem_append_right _ huj

/-! ### Claims -/

/-- Claim C1: for a fixed template and fixed list of source texts, the
pipeline is a deterministic function — two runs agree byte-for-byte on
both output files, and the wall-clock date does not influence either
playlist body. -/
theorem C1_pipeline_deterministic :
    ∀ (now1 now2 : String) (cfg : Config) (templateText : String) (sourceTexts : List String),
      pipeline now1 cfg templateText sourceTexts = pipeline now2 cfg templateText sourceTexts ∧
      pipeline now1 cfg templateText sourceTexts = pipeline now1 cfg templateText sourceTexts :=
  fun _ _ _ _ _ => ⟨rfl, rfl⟩

/-- Claim C2 (amended): every URL emitted over an entire writer run is
non-empty and contains no blacklist substring, and the per-channel
emitted lists are pairwise disjoint — a URL emitted for one channel never
reappears for a later channel.  (The original claim's "at most once
across all categories and channels" fails: duplicates inside a single
channel's candidate list are all emitted, see the counterexample.) -/
theorem C2_url_uniqueness :
    ∀ (cfg : Config) (channels : ODict (ODict (List String))) (tpl : ODict (List String)),
      (∀ s ∈ writer_step_lists cfg channels tpl, ∀ u ∈ s,
          u ≠ "" ∧ ∀ b ∈ cfg.url_blacklist, pyIn b u = false) ∧
      List.Pairwise stepDisj (writer_step_lists cfg channels tpl) := by
  intro cfg channels tpl
  obtain ⟨_, h2, h3⟩ := writer_cats_sound cfg channels tpl []
  exact ⟨fun s hs u hu => (h2 u (List.mem_flatten.mpr ⟨s, hs, hu⟩)).1, h3⟩

theorem C2_url_uniqueness_witness : ("http://dup" : String) ≠ "" :=
  ((C2_url_uniqueness ⟨[], [], "ipv4"⟩
      [("Cat", [("Ch1", ["http://dup"]), ("Ch2", ["http://dup"])])]
      [("Cat", ["Ch1", "Ch2"])]).1
    ["http://dup"] (by decide) "http://dup" (by decide)).1

/-- Claim C2, as stated, is false: a channel whose candidate list holds
the same literal URL twice emits it twice, because the written-set check
of `sort_and_filter_urls` is made against the set as it was before the
update. -/
theorem C2_counterexample :
    writer_all_urls ⟨[], [], "ipv4"⟩ [("Cat", [("Ch", ["http://a", "http://a"])])]
        [("Cat", ["Ch"])]
      = ["http://a", "http://a"] ∧
    ¬ List.Nodup ["http://a", "http://a"] := by
  constructor
  · decide
  · intro h
    exact (List.pairwise_cons.mp h).1 "http://a" (by decide) rfl

/-- Claim C3 (amended): `clean_channel_name "CCTV-1 「HD」"` is
`"CCTV1HD"` (not `"CCTV1"`: alphabetic text after the digits is kept),
`clean_channel_name "CCTV05" = "CCTV5"`, and the shared call-site guard
applies the cleaner exactly to the non-empty raw names starting with
`"CCTV"`, leaving every other name unmodified. -/
theorem C3_name_normalizer :
    clean_channel_name "CCTV-1 「HD」" = "CCTV1HD" ∧
    clean_channel_name "CCTV05" = "CCTV5" ∧
    (∀ name : String, pyStartsWith name "CCTV" = false → applyCCTVClean name = name) ∧
    (∀ name : String, name ≠ "" → pyStartsWith name "CCTV" = true →
        applyCCTVClean name = clean_channel_name name) := by
  refine ⟨by decide, by decide, ?_, ?_⟩
  · intro name h
    unfold applyCCTVClean
    rw [if_neg]
    rintro ⟨_, h2⟩
    rw [h] at h2
    exact absurd h2 (by simp)
  · intro name h1 h2
    unfold applyCCTVClean
    rw [if_pos ⟨h1, h2⟩]

theorem C3_name_normalizer_witness :
    applyCCTVClean "BBC One" = "BBC One" ∧
    applyCCTVClean "CCTV08" = clean_channel_name "CCTV08" :=
  ⟨C3_name_normalizer.2.2.1 "BBC One" (by decide),
    C3_name_normalizer.2.2.2 "CCTV08" (by decide) (by decide)⟩

/-- Claim C3, as stated, is false at its own first example: the code
keeps the trailing `"HD"`. -/
theorem C3_counterexample :
    clean_channel_name "CCTV-1 「HD」" = "CCTV1HD" ∧ ("CCTV1HD" : String) ≠ "CCTV1" := by
  decide

/-- Claim C4: in delimited parsing with an active category, a line with a
comma yields one `(name, url)` entry per `#`-separated segment of the
text after the first comma, each segment whitespace-trimmed and empty
segments preserved; a non-empty line without a comma yields a single
`(line, "")` entry; and the spec's concrete example parses as stated. -/
theorem C4_delimited_urls :
    (∀ (chans : ODict (List (String × String))) (c rawLine a b : String),
        pyIn "#genre#" (pyStrip rawLine) = false → c ≠ "" →
        splitFirstComma (pyStrip rawLine) = some (a, b) →
        parse_txt_step (chans, some c) rawLine
          = (odAppendList chans c
              ((pySplitChar '#' (pyStrip b)).map
                (fun seg => (applyCCTVClean (pyStrip a), pyStrip seg))), some c)) ∧
    (∀ (chans : ODict (List (String × String))) (c rawLine : String),
        pyIn "#genre#" (pyStrip rawLine) = false → c ≠ "" →
        splitFirstComma (pyStrip rawLine) = none → pyStrip rawLine ≠ "" →
        parse_txt_step (chans, some c) rawLine
          = (odAppend chans c (pyStrip rawLine, ""), some c)) ∧
    parse_txt_lines ["News,#genre#", "NewsChannel,http://a/1#http://a/2"]
      = [("News", [("NewsChannel", "http://a/1"), ("NewsChannel", "http://a/2")])] := by
  refine ⟨?_, ?_, by decide⟩
  · intro chans c rawLine a b h1 h2 h3
    simp only [parse_txt_step, h1, h3, Bool.false_eq_true, if_false, if_neg h2,
      List.map_map]
    rfl
  · intro chans c rawLine h1 h2 h3 h4
    simp only [parse_txt_step, h1, h3, Bool.false_eq_true, if_false, if_neg h2, if_neg h4]

theorem C4_delimited_urls_witness :
    parse_txt_step ([("News", [])], some "News") "NewsChannel,http://a/1#http://a/2"
      = ([("News", [("NewsChannel", "http://a/1"), ("NewsChannel", "http://a/2")])],
          some "News") := by
  rw [C4_delimited_urls.1 [("News", [])] "News" "NewsChannel,http://a/1#http://a/2"
      "NewsChannel" "http://a/1#http://a/2" (by decide) (by decide) (by decide)]
  decide

/-- Claim C5 (amended): on an `#EXTINF` line matching the group-title
regex, the category is the (stripped) group-title value and the raw
channel name is everything after the comma that closes the group-title
attribute — the first `",` after `group-title="`, not necessarily the
final comma of the line; the category is registered before any URL line
is seen, and the spec's concrete example parses as stated. -/
theorem C5_extinf_parsing :
    (∀ (st : M3uSt) (rawLine g1 g2 : String),
        pyStartsWith (pyStrip rawLine) "#EXTINF" = true →
        searchGroupTitle (pyStrip rawLine) = some (g1, g2) →
        parse_m3u_step st rawLine
          = { channels :=
                if odContains st.channels (pyStrip g1) then st.channels
                else st.channels ++ [(pyStrip g1, [])],
              cat := some (pyStrip g1),
              name := applyCCTVClean (pyStrip g2) }) ∧
    parse_m3u_lines ["#EXTINF:-1 group-title=\"News\",CCTV01", "http://x/1"]
      = [("News", [("CCTV1", "http://x/1")])] ∧
    parse_m3u_lines ["#EXTINF:-1 group-title=\"News\",CCTV01"] = [("News", [])] := by
  refine ⟨?_, by decide, by decide⟩
  intro st rawLine g1 g2 h1 h2
  simp only [parse_m3u_step, h1, h2, if_true]

theorem C5_extinf_parsing_witness :
    parse_m3u_step ⟨[], none, ""⟩ "#EXTINF:-1 group-title=\"News\",CCTV01"
      = ⟨[("News", [])], some "News", "CCTV1"⟩ := by
  rw [C5_extinf_parsing.1 ⟨[], none, ""⟩ "#EXTINF:-1 group-title=\"News\",CCTV01"
      "News" "CCTV01" (by decide) (by decide)]
  decide

/-- Claim C5, as stated, is false for names containing a comma: the
captured name is everything after the comma closing the group-title
attribute, here `"Alpha,Beta"`, not the text after the final comma
(`"Beta"`). -/
theorem C5_counterexample :
    parse_m3u_lines ["#EXTINF:-1 group-title=\"News\",Alpha,Beta", "http://x/1"]
        = [("News", [("Alpha,Beta", "http://x/1")])] ∧
      ("Alpha,Beta" : String) ≠ "Beta" := by
  decide

/-- Claim C6: format detection depends only on the first 15 lines of the
input; the text is parsed as extended (M3U) format iff one of those lines
begins with `#EXTINF`; inputs whose `#EXTINF` markers all occur later are
parsed as delimited format. -/
theorem C6_format_detection :
    (∀ t1 t2 : String,
        (pySplitChar '\n' t1).take 15 = (pySplitChar '\n' t2).take 15 →
        textIsM3u t1 = textIsM3u t2) ∧
    (∀ t : String, textIsM3u t = true ↔
        ∃ l ∈ (pySplitChar '\n' t).take 15, pyStartsWith l "#EXTINF" = true) ∧
    (∀ t : String,
        (∀ l ∈ (pySplitChar '\n' t).take 15, pyStartsWith l "#EXTINF" = false) →
        fetch_channels_text t = parse_txt_lines (pySplitChar '\n' t)) := by
  refine ⟨?_, ?_, ?_⟩
  · intro t1 t2 h
    unfold textIsM3u
    rw [h]
  · intro t
    unfold textIsM3u
    simp [List.any_eq_true]
  · intro t h
    have hfalse : textIsM3u t = false := by
      unfold textIsM3u
      rw [List.any_eq_false]
      intro l hl
      rw [h l hl]
      simp
    unfold fetch_channels_text
    rw [hfalse]
    simp

theorem C6_format_detection_witness :
    fetch_channels_text "News,#genre#\nCh,http://u"
      = parse_txt_lines (pySplitChar '\n' "News,#genre#\nCh,http://u") :=
  C6_format_detection.2.2 "News,#genre#\nCh,http://u" (by decide)

/-- Claim C7: ranking is the stable Boolean-key sort — with preference
"ipv6" the IPv6-literal URLs come first, otherwise the non-IPv6 URLs
come first, each side keeping input order; `add_url_suffix` replaces
everything from the first `$` on with the family/index suffix; and the
spec's concrete ipv4-preference example ranks and tags as stated. -/
theorem C7_ranking :
    (∀ (cfg : Config) (urls : List String), cfg.ip_version_priority = "ipv6" →
        sorted_urls cfg urls
          = urls.filter (fun u => is_ipv6 u) ++ urls.filter (fun u => !(is_ipv6 u))) ∧
    (∀ (cfg : Config) (urls : List String), cfg.ip_version_priority ≠ "ipv6" →
        sorted_urls cfg urls
          = urls.filter (fun u => !(is_ipv6 u)) ++ urls.filter (fun u => is_ipv6 u)) ∧
    (∀ base rest : String, pyIn "$" base = false →
        dollarBase (base ++ "$" ++ rest) = base) ∧
    sort_and_filter_urls ⟨[], [], "ipv4"⟩ ["http://[::1]/a", "http://b/c"] []
      = (["http://b/c", "http://[::1]/a"], ["http://b/c", "http://[::1]/a"]) ∧
    add_url_suffix "http://b/c" 1 2 = "http://b/c$LR•IPV4『线路1』" ∧
    add_url_suffix "http://[::1]/a" 2 2 = "http://[::1]/a$LR•IPV6『线路2』" ∧
    add_url_suffix "http://b/c$old" 1 1 = "http://b/c$LR•IPV4" := by
  refine ⟨?_, ?_, fun base rest h => dollarBase_append h, by decide, by decide, by decide,
    by decide⟩
  · intro cfg urls h
    unfold sorted_urls sort_urls_key
    rw [h]
    simp
  · intro cfg urls h
    unfold sorted_urls sort_urls_key
    simp only [if_neg h]

theorem C7_ranking_witness :
    sorted_urls ⟨[], [], "ipv6"⟩ ["http://[::1]/a", "http://b/c"]
      = ["http://[::1]/a", "http://b/c"] := by
  rw [C7_ranking.1 ⟨[], [], "ipv6"⟩ ["http://[::1]/a", "http://b/c"] rfl]
  decide

/-- Headers of `step_txt_entries` lists: there are none. -/
theorem filterMap_headerCat_map_entry (name : String) :
    ∀ (l : List (Nat × String)) (t : Nat),
      (l.map (fun p => TxtLine.entry name (add_url_suffix p.2 (p.1 + 1) t))).filterMap
        headerCat = [] := by
  intro l t
  induction l with
  | nil => simp
  | cons a r ih => simp [List.filterMap_cons, headerCat, ih]

theorem flatMap_step_txt_entries_no_header :
    ∀ steps : List (String × List String),
      (steps.flatMap (fun s => step_txt_entries s.1 s.2)).filterMap headerCat = [] := by
  intro steps
  induction steps with
  | nil => simp
  | cons s r ih =>
    rw [List.flatMap_cons, List.filterMap_append, ih]
    rw [show step_txt_entries s.1 s.2
        = (s.2.enum).map (fun p => TxtLine.entry s.1 (add_url_suffix p.2 (p.1 + 1) s.2.length))
      from rfl]
    rw [filterMap_headerCat_map_entry s.1 s.2.enum s.2.length]
    rfl

/-- The categories of the writer's outer loop results are exactly the
template categories, in template order. -/
theorem writer_cats_keys (cfg : Config) (channels : ODict (ODict (List String))) :
    ∀ (tpl : ODict (List String)) (w : List String),
      (writer_cats cfg channels tpl w).1.map (fun c => c.1) = tpl.map (fun p => p.1) := by
  intro tpl
  induction tpl with
  | nil => intro w; simp [writer_cats]
  | cons cp rest ih =>
    intro w
    cases hl : odLookup channels cp.1 with
    | none => simp [writer_cats, hl, ih]
    | some d => simp [writer_cats, hl, ih]

/-- Claim C8: the delimited output contains exactly one
`{category},#genre#` header line per template category, in template
order, regardless of the matched channels — headers are written even for
categories with zero matches. -/
theorem C8_category_headers :
    ∀ (cfg : Config) (channels : ODict (ODict (List String))) (tpl : ODict (List String)),
      (txt_lines cfg channels tpl).filterMap headerCat = tpl.map (fun p => p.1) := by
  intro cfg channels tpl
  unfold txt_lines
  rw [← writer_cats_keys cfg channels tpl []]
  generalize (writer_cats cfg channels tpl []).1 = L
  induction L with
  | nil => simp
  | cons c r ih =>
    rw [List.flatMap_cons, List.filterMap_append, ih, List.filterMap_cons]
    simp only [headerCat]
    rw [flatMap_step_txt_entries_no_header]
    simp

/-- Claim C9 (amended): template parsing ignores blank lines and all
lines starting with `#` — including lines containing `#genre#`; a
surviving `#genre#`-marked line's (stripped) pre-comma text starts a new
category; every other surviving line's pre-comma text is appended to the
current category, in file order. -/
theorem C9_template_parsing :
    (∀ (st : ODict (List String) × Option String) (rawLine : String),
        pyStrip rawLine = "" ∨ pyStartsWith (pyStrip rawLine) "#" = true →
        parse_template_step st rawLine = st) ∧
    (∀ (st : ODict (List String) × Option String) (rawLine : String),
        pyStrip rawLine ≠ "" → pyStartsWith (pyStrip rawLine) "#" = false →
        pyIn "#genre#" (pyStrip rawLine) = true →
        parse_template_step st rawLine
          = (odSet st.1 (pyStrip (beforeComma (pyStrip rawLine))) [],
              some (pyStrip (beforeComma (pyStrip rawLine))))) ∧
    (∀ (chans : ODict (List String)) (c rawLine : String),
        pyStrip rawLine ≠ "" → pyStartsWith (pyStrip rawLine) "#" = false →
        pyIn "#genre#" (pyStrip rawLine) = false → c ≠ "" →
        parse_template_step (chans, some c) rawLine
          = (odAppend chans c (pyStrip (beforeComma (pyStrip rawLine))), some c)) := by
  refine ⟨?_, ?_, ?_⟩
  · intro st rawLine h
    rcases h with h | h
    · simp only [parse_template_step, h, if_true]
    · simp only [parse_template_step, h, if_true]
      split
      · rfl
      · rfl
  · intro st rawLine h1 h2 h3
    simp only [parse_template_step, h1, h2, h3, Bool.false_eq_true, if_false, if_true,
      if_neg h1]
  · intro chans c rawLine h1 h2 h3 h4
    simp only [parse_template_step, h1, h2, h3, Bool.false_eq_true, if_false, if_neg h1,
      if_neg h4]

theorem C9_template_parsing_witness :
    parse_template_step ([], none) "# note about #genre# markers" = ([], none) :=
  C9_template_parsing.1 ([], none) "# note about #genre# markers" (by decide)

/-- Claim C9, as stated, is false: a line starting with `#` is ignored by
`parse_template` even when it contains `#genre#`, so no category `#News`
is created. -/
theorem C9_counterexample :
    parse_template ["#News,#genre#", "Chan,x"] = [] ∧
      ([] : ODict (List String)) ≠ [("#News", ["Chan"])] := by
  refine ⟨by decide, ?_⟩
  intro h
  exact List.cons_ne_nil _ _ h.symm

/-- Claim C10: in extended parsing, while a truthy category and captured
name are active, every non-comment, non-empty line is appended as a
`(name, url)` pair with the most recently captured name and the state
otherwise unchanged; an `#EXTINF` line that does not match the
group-title regex changes nothing; hence one metadata line followed by
three URL lines yields three pairs sharing the name. -/
theorem C10_url_accumulation :
    (∀ (chans : ODict (List (String × String))) (cat name rawLine : String),
        pyStartsWith (pyStrip rawLine) "#" = false → pyStrip rawLine ≠ "" →
        cat ≠ "" → name ≠ "" →
        parse_m3u_step ⟨chans, some cat, name⟩ rawLine
          = ⟨odAppend chans cat (name, pyStrip rawLine), some cat, name⟩) ∧
    (∀ (st : M3uSt) (rawLine : String),
        pyStartsWith (pyStrip rawLine) "#EXTINF" = true →
        searchGroupTitle (pyStrip rawLine) = none →
        parse_m3u_step st rawLine = st) ∧
    parse_m3u_lines
        ["#EXTINF:-1 group-title=\"News\",Chan", "http://x/1", "http://x/2", "http://x/3"]
      = [("News", [("Chan", "http://x/1"), ("Chan", "http://x/2"),
          ("Chan", "http://x/3")])] := by
  refine ⟨?_, ?_, by decide⟩
  · intro chans cat name rawLine h1 h2 h3 h4
    have hx : pyStartsWith (pyStrip rawLine) "#EXTINF" = false := by
      cases he : pyStartsWith (pyStrip rawLine) "#EXTINF" with
      | false => rfl
      | true => rw [pyStartsWith_hash_of_extinf he] at h1; exact absurd h1 (by simp)
    have hcond : pyStrip rawLine ≠ "" ∧ ¬ (pyStartsWith (pyStrip rawLine) "#" = true) :=
      ⟨h2, fun e => by rw [h1] at e; exact absurd e (by simp)⟩
    simp only [parse_m3u_step, hx, Bool.false_eq_true, if_false, if_pos (And.intro h3 h4)]
    rw [if_pos hcond]
  · intro st rawLine h1 h2
    simp only [parse_m3u_step, h1, h2, if_true]

theorem C10_url_accumulation_witness :
    parse_m3u_step ⟨[("News", [])], some "News", "Chan"⟩ "http://x/9"
      = ⟨[("News", [("Chan", "http://x/9")])], some "News", "Chan"⟩ := by
  rw [C10_url_accumulation.1 [("News", [])] "News" "Chan" "http://x/9"
      (by decide) (by decide) (by decide) (by decide)]
  decide
